/-
Verification of the MobyDump incremental fetch-and-cache pipeline.

This file gives a shallow embedding, in Lean, of the core control flow of
the MobyDump repository (src/mobydump.py, src/modules/get_mg_data.py,
src/modules/requests.py) and proves or refutes the frozen claims about it.

Modelling conventions:
  * Listing/detail cache files on disk are modelled by the data they key:
    a listing page is the list of game ids it stores (the claims under
    verification only concern page lengths, ids and membership, never the
    other record fields), the detail cache is the finite set of game ids
    that have a `games-details/<id>.json` file.
  * The remote API is modelled by explicit response functions passed in as
    arguments (a page list for stage 1, a success/404 oracle for stage 2,
    an outcome sequence for the retry logic).
  * `sys.exit(n)` is modelled by an outcome constructor carrying `n`.
-/
import Mathlib

/-! ## Stage 1 — `get_games` (src/modules/get_mg_data.py lines 148-240) -/

/-- From `get_games`: the starting offset is `max(cached listing offsets) +
offset_increment` when the platform's `games/` directory holds cached pages
(`offset_increment = 100`), and `0` otherwise.  The source computes the
maximum with `max(natsorted([int(x.stem) ...]))`; the maximum of a list of
naturals does not depend on the sort, so it is `foldl max 0` here. -/
def stage1_resume_offset (cachedOffsets : List Nat) : Nat :=
  if cachedOffsets.isEmpty then 0 else cachedOffsets.foldl max 0 + 100

/-- Result of one stage-1 run (`get_games`): either the loop completed,
with the pages it cached (offset, page) and the final `stage_1_finished`
flag, or the platform had zero games at offset 0, in which case the
platform's cache directory is removed and the process exits. -/
inductive Stage1Result where
  | completed (cached : List (Nat × List Nat)) (stage1Finished : Bool)
  | abortedEmptyPlatform (cacheDeleted : Bool) (exitCode : Nat)
  deriving DecidableEq, Repr

/-- The `while True` loop of `get_games`, for a run starting with
`stage_1_finished = False`.  `pages` is the sequence of pages the API
returns at offsets `offset, offset+100, ...` (each page the list of game
ids in that response); an exhausted `pages` models a response without a
`'games'` key, which sets `stage_1_finished` and ends the loop.  Per the
source: a page with fewer than 100 titles sets `stage_1_finished = True`
and ends the loop after the page is cached; a page with zero titles at
offset 0 deletes the platform cache tree and calls `sys.exit(1)` before
anything is written. -/
def get_games_loop (offset : Nat) (pages : List (List Nat))
    (acc : List (Nat × List Nat)) : Stage1Result :=
  match pages with
  | [] => .completed acc true
  | page :: rest =>
    if page.length = 0 ∧ offset = 0 then
      .abortedEmptyPlatform true 1
    else if page.length < 100 then
      .completed (acc ++ [(offset, page)]) true
    else
      get_games_loop (offset + 100) rest (acc ++ [(offset, page)])

/-- A stage-1 run over a fresh cache: the loop starts at offset 0. -/
def get_games_run (pages : List (List Nat)) : Stage1Result :=
  get_games_loop 0 pages []

/-! ## Stage 2 — `get_game_details` (src/modules/get_mg_data.py lines 243-376) -/

/-- The per-id loop of `get_game_details`: `ids` are the `(game_id)`s
enumerated from the cached listing pages in order, `cache` the set of ids
that already have a `games-details/<id>.json` file, `respond id = true`
when the detail request for `id` succeeds and `false` when it returns
HTTP 404 (in which case the source does `request_wait` and `continue`
without writing anything).  `requested` records every detail request
issued, in order. -/
def get_game_details_loop (respond : Nat → Bool) (ids : List Nat)
    (cache : Finset Nat) (requested : List Nat) : Finset Nat × List Nat :=
  match ids with
  | [] => (cache, requested)
  | id :: rest =>
    if id ∈ cache then
      get_game_details_loop respond rest cache requested
    else if respond id then
      get_game_details_loop respond rest (insert id cache) (requested ++ [id])
    else
      get_game_details_loop respond rest cache (requested ++ [id])

/-- Outcome of a `get_game_details` call: the final detail cache, the
detail requests issued, and the `stage_2_finished` flag written to
`status.json` at the end. -/
structure Stage2Result where
  details : Finset Nat
  requested : List Nat
  stage2Finished : Bool
  deriving DecidableEq

/-- `get_game_details`: the whole fetch block is guarded by
`if not config.args.skipdetails`, but `stage_2_finished = True` is written
to `status.json` unconditionally at the end of the function. -/
def get_game_details_run (skipdetails : Bool) (respond : Nat → Bool)
    (ids : List Nat) (cache : Finset Nat) : Stage2Result :=
  if skipdetails then
    ⟨cache, [], true⟩
  else
    let r := get_game_details_loop respond ids cache []
    ⟨r.1, r.2, true⟩

/-- The caller's gate (src/mobydump.py line 242): `get_game_details` runs
only when `stage_2_finished` is not yet set, so a second stage-2 pass over
a completed status is a no-op. -/
def stage2_entry (stage2Done skipdetails : Bool) (respond : Nat → Bool)
    (ids : List Nat) (cache : Finset Nat) : Stage2Result :=
  if stage2Done then ⟨cache, [], true⟩
  else get_game_details_run skipdetails respond ids cache

/-! ## Remote Client — `api_request` and `request_retry`
(src/modules/requests.py lines 10-150 and 208-264) -/

/-- What one HTTP attempt produces, as distinguished by `api_request`'s
exception handlers: a usable response, a timeout, a connection error, or
an HTTP error status. -/
inductive Attempt where
  | ok
  | timedOut
  | connError
  | http (code : Nat)
  deriving DecidableEq

/-- The statuses `api_request` hands to `request_retry`: timeouts,
connection errors, 429, and — since `raise_for_status` only raises for
codes in 400-599, where `str(code).startswith('5')` means 500-599 — every
5xx (the source enumerates 500/502/503/504/520/522/524/525 and catches
the remaining 5xx with the `startswith('5')` branch). -/
def retryable : Attempt → Bool
  | .ok => false
  | .timedOut => true
  | .connError => true
  | .http code => code == 429 || (500 ≤ code && code ≤ 599)

/-- `progressive_timeout = [0, 60, 300, 600, 3600, -1]` from
`request_retry`, indexed by the retry count; the loop never indexes past
the `-1` sentinel, so indices beyond the list also map to `-1` here. -/
def progressive_timeout (t : Nat) : Int :=
  match t with
  | 0 => 0
  | 1 => 60
  | 2 => 300
  | 3 => 600
  | 4 => 3600
  | _ => -1

/-- Result of an `api_request` call chain: a successful response (which
attempt succeeded and the waits slept before it), a `sys.exit` (its code
and the waits slept before it), or a 404 returned to a game-details
caller. -/
inductive RetryResult where
  | success (attempt : Nat) (waits : List Int)
  | exited (code : Nat) (waits : List Int)
  | notFound (attempt : Nat)
  deriving DecidableEq

/-- Record a sleep of `w` seconds in front of an outcome's wait list. -/
def addWait (w : Int) : RetryResult → RetryResult
  | .success a ws => .success a (w :: ws)
  | .exited c ws => .exited c (w :: ws)
  | .notFound a => .notFound a

/-- `api_request` at retry count `t`, with `request_retry` inlined:
`outcome i` is what attempt number `i` produces.  Branches follow the
source: 401 and 422 exit immediately with code 1; a 404 is returned to
the caller only for `type='game-details'` (and `request_retry` calls
`api_request` back without a `type`, hence `false` in the recursive
call); 429 and the 5xx family go to `request_retry`, which exits with
code 1 once `progressive_timeout[timeout]` is the `-1` sentinel and
otherwise sleeps that entry and retries at count `t + 1`; any other
`HTTPError` exits with code 1. -/
def api_request (outcome : Nat → Attempt) (isDetails : Bool) (t : Nat) :
    RetryResult :=
  match outcome t with
  | .ok => .success t []
  | .timedOut =>
    if h : progressive_timeout t = -1 then .exited 1 []
    else addWait (progressive_timeout t) (api_request outcome false (t + 1))
  | .connError =>
    if h : progressive_timeout t = -1 then .exited 1 []
    else addWait (progressive_timeout t) (api_request outcome false (t + 1))
  | .http code =>
    if code = 401 then .exited 1 []
    else if code = 404 ∧ isDetails = true then .notFound t
    else if code = 422 then .exited 1 []
    else if code = 429 ∨ (500 ≤ code ∧ code ≤ 599) then
      if h : progressive_timeout t = -1 then .exited 1 []
      else addWait (progressive_timeout t) (api_request outcome false (t + 1))
    else .exited 1 []
termination_by 6 - t
decreasing_by
  all_goals
    rcases t with _ | _ | _ | _ | _ | t <;> first | omega | exact absurd rfl h

/-! ## Update Reconciler — `get_updates`
(src/modules/get_mg_data.py lines 449-1168) -/

/-- A record of the `games/recent` changes feed: its `game_id` and the
`platform_id`s of its `platforms` membership list (the only fields the
reconciliation logic reads). -/
structure MGGame where
  game_id : Nat
  platforms : List Nat
  deriving DecidableEq

/-- The per-platform partition of the cached feed (lines 761-774): each
record is appended to `updated_platform_related_games` once per
`platform_release` whose `platform_id` matches (hence the `replicate`),
and to `updated_platform_unrelated_games` when none matches. -/
def splitGames (pid : Nat) (feed : List MGGame) : List MGGame × List MGGame :=
  match feed with
  | [] => ([], [])
  | g :: rest =>
    let parts := splitGames pid rest
    let hits := (g.platforms.filter (fun p => p = pid)).length
    if 0 < hits then (List.replicate hits g ++ parts.1, parts.2)
    else (parts.1, g :: parts.2)

/-- The eviction loop (lines 814-821): for each distinct unrelated
`game_id`, if it is in `game_ids` remove it and record it in
`removed_game_ids`. -/
def evict_loop : List Nat → Finset Nat → Finset Nat → Finset Nat × Finset Nat
  | [], gids, removed => (gids, removed)
  | x :: rest, gids, removed =>
    if x ∈ gids then evict_loop rest (gids.erase x) (insert x removed)
    else evict_loop rest gids removed

/-- A platform's persisted state: the two `status.json` flags, the game
ids of its `games/` listing cache (the set the update pass computes from
the cached pages at lines 777-795), and the set of ids with a
`games-details/` file. -/
structure PlatformState where
  stage1 : Bool
  stage2 : Bool
  listingIds : Finset Nat
  details : Finset Nat
  deriving DecidableEq

/-- The gate at lines 712-715: only a platform with both stages finished
is updated.  (The source additionally requires a `last_updated` key whose
parsed date is truthy, lines 716-733; every status the update pass or
`delete_cache` writes carries one, and the claims under verification
concern platforms that have it.) -/
def platform_update_eligible (st : PlatformState) : Bool :=
  st.stage1 && st.stage2

/-- What one platform's pass of the update loop did: the detail requests
issued (in the sorted order of lines 1011-1013), the evicted ids
(`removed_game_ids`), and whether `write_output_files` ran. -/
structure ReconcileEvents where
  refetched : List Nat
  evicted : Finset Nat
  exported : Bool
  deriving DecidableEq

/-- One platform's pass of the update loop (lines 691-1165), for a feed
that has been fully downloaded.  In order: platforms without both stages
finished are skipped with a warning; a feed with no related and no
unrelated records takes the `else` branch at line 1164 ("No games needed
to be updated"); otherwise the existing id set is unioned with the
related ids (line 811) and distinct unrelated ids present in the set are
evicted (lines 814-821); if there are no related records and no evictions
the platform is skipped before anything is rewritten (lines 823-838);
otherwise both status flags are rewritten as `True`, every related
record's detail is re-requested in `game_id` order regardless of an
existing detail file (lines 1026-1085, `respond id = false` modelling a
404 that skips the write), evicted ids' detail files are deleted (lines
1095-1110), and the platform's output files are re-exported (line 1145).
The `listingIds` of the returned state is the in-memory reconciled set
`game_ids` that drives the rebuild; the on-disk rewrite of the `games/`
pages (lines 849-941) is modelled separately by `recreate_cache_files`,
because that loop does not always realize this set on disk. -/
def update_platform (pid : Nat) (feed : List MGGame) (respond : Nat → Bool)
    (st : PlatformState) : PlatformState × ReconcileEvents :=
  if platform_update_eligible st = true then
    let parts := splitGames pid feed
    let related := parts.1
    let unrelated := parts.2
    if related = [] ∧ unrelated = [] then (st, ⟨[], ∅, false⟩)
    else
      let gids := st.listingIds ∪ (related.map MGGame.game_id).toFinset
      let er := evict_loop (unrelated.map MGGame.game_id).dedup gids ∅
      if related = [] ∧ er.2 = ∅ then (st, ⟨[], ∅, false⟩)
      else
        let sortedRelated :=
          related.mergeSort (fun a b => a.game_id ≤ b.game_id)
        let fetched := sortedRelated.foldl
          (fun d g => if respond g.game_id then insert g.game_id d else d)
          st.details
        (⟨true, true, er.1, fetched \ er.2⟩,
          ⟨sortedRelated.map MGGame.game_id, er.2, true⟩)
  else (st, ⟨[], ∅, false⟩)

/-- The ids carried by the unrelated partition of the feed. -/
def unrelatedIds (pid : Nat) (feed : List MGGame) : Finset Nat :=
  ((splitGames pid feed).2.map MGGame.game_id).toFinset

/-! ### The listing-cache rebuild of the update pass
(src/modules/get_mg_data.py lines 849-941) -/

/-- The loop state of the rebuild, initialized at lines 850-854:
`added_game_ids`; `file_contents` (as the game ids of the accumulated
records); `file_count`, which is shared between the page reads at
line 872 and the temp-file writes at line 904; `last_id`; the currently
loaded page `cache` (`none` models the initial `{}`, whose
`cache['games']` access raises); and the `.jsontmp` files written so
far, keyed by page number (`games/{100*file_count}.jsontmp` is keyed
as `file_count` here, like the pages of `disk`). -/
structure RebuildState where
  added : Finset Nat
  file_contents : List Nat
  file_count : Nat
  last_id : Nat
  cache : Option (List Nat)
  tmps : List (Nat × List Nat)
  deriving DecidableEq

/-- Python's `max([x['game_id'] for x in cache['games']])` over a
nonempty page of naturals. -/
def maxGameId (page : List Nat) : Nat := page.foldl max 0

/-- One iteration of `for game_id in sorted(game_ids)` (lines 858-929).
First the related-records scan (lines 860-864): the first related record
with this id is appended and the id marked added.  Then, for an id not
yet added, the `try` block of lines 868-893: when `game_id > last_id`
the page `games/{100*file_count}.json` is (re)loaded — a missing file
raises, skipping the whole block with `except: pass` — then `last_id` is
recomputed from the loaded page (raising on the initial `{}`, or on an
empty page after `cache` was already reassigned), the page's entries
matching the id are appended, and the id is marked added even when the
loaded page does not contain it.  Finally lines 895-929: when
`len(file_contents)` is a multiple of 100 (including 0) or this is the
last id of `sorted(game_ids)`, the accumulated records are written to
`games/{100*file_count}.jsontmp`, `file_contents` resets and
`file_count` advances. -/
def rebuild_step (relatedList : List Nat) (disk : List (Nat × List Nat))
    (isLast : Bool) (gid : Nat) (s : RebuildState) : RebuildState :=
  let s1 :=
    if gid ∈ relatedList then
      { s with
        file_contents := s.file_contents ++ [gid]
        added := insert gid s.added }
    else s
  let s2 :=
    if gid ∉ s1.added then
      if s1.last_id < gid then
        match disk.lookup s1.file_count with
        | none => s1
        | some page =>
          if page.isEmpty then { s1 with cache := some page }
          else
            { s1 with
              cache := some page
              last_id := maxGameId page
              file_contents :=
                s1.file_contents ++ page.filter (fun x => x = gid)
              added := insert gid s1.added }
      else
        match s1.cache with
        | none => s1
        | some page =>
          if page.isEmpty then s1
          else
            { s1 with
              last_id := maxGameId page
              file_contents :=
                s1.file_contents ++ page.filter (fun x => x = gid)
              added := insert gid s1.added }
    else s1
  if s2.file_contents.length % 100 = 0 ∨ isLast = true then
    { s2 with
      tmps := s2.tmps ++ [(s2.file_count, s2.file_contents)]
      file_contents := []
      file_count := s2.file_count + 1 }
  else s2

/-- The `for game_id in sorted(game_ids)` loop; `lastGid` is
`sorted(game_ids)[-1]`. -/
def rebuild_loop (relatedList : List Nat) (disk : List (Nat × List Nat))
    (lastGid : Nat) : List Nat → RebuildState → RebuildState
  | [], s => s
  | gid :: rest, s =>
      rebuild_loop relatedList disk lastGid rest
        (rebuild_step relatedList disk (gid == lastGid) gid s)

/-- One `game_file.replace(...)` step of the rename pass: the temp file
overwrites the same-numbered `.json` page, creating it when absent. -/
def upsert_page : List (Nat × List Nat) → Nat → List Nat →
    List (Nat × List Nat)
  | [], i, c => [(i, c)]
  | (j, p) :: rest, i, c =>
      if j = i then (i, c) :: rest else (j, p) :: upsert_page rest i c

/-- The rename pass at lines 931-941: every `.jsontmp` replaces its
same-numbered `.json`; pages for which no temp file was written are left
on disk untouched. -/
def apply_tmps : List (Nat × List Nat) → List (Nat × List Nat) →
    List (Nat × List Nat)
  | disk, [] => disk
  | disk, (i, c) :: rest => apply_tmps (upsert_page disk i c) rest

/-- The whole rebuild (lines 849-941): `disk` is the platform's listing
cache, as pairs of page number and the game ids of
`games/{100*page}.json`; `relatedList` holds the ids of
`updated_platform_related_games`; `gids` is the reconciled id set in
`sorted(game_ids)` order. -/
def recreate_cache_files (relatedList : List Nat)
    (disk : List (Nat × List Nat)) (gids : List Nat) :
    List (Nat × List Nat) :=
  let s := rebuild_loop relatedList disk (gids.getLastD 0) gids
    ⟨∅, [], 0, 0, none, []⟩
  apply_tmps disk s.tmps

/-- All game ids present across a listing cache's pages. -/
def disk_ids (disk : List (Nat × List Nat)) : Finset Nat :=
  disk.foldr (fun e s => e.2.toFinset ∪ s) ∅

/-! ## Update resume decision — `get_updates`
(src/modules/get_mg_data.py lines 480-544) -/

/-- The `updates.json` state read at lines 483-490: the
`update_finished` flag, the age of `update_last_run` (in whole minutes
before now; only differences of the parsed timestamp are inspected), and
the persisted `days_to_update`, both `none` when the key is absent. -/
structure UpdatesStatus where
  update_finished : Bool
  update_last_run_minutes_ago : Option Nat
  days_to_update : Option Nat
  deriving DecidableEq

/-- `dateutil.relativedelta(now, update_last_run).hours` for a gap of
`minutesAgo` minutes: relativedelta normalizes the difference into
months, days, hours and minutes, so for gaps under one calendar month
`.hours` is the leftover hours component after whole days. -/
def relativedelta_hours (minutesAgo : Nat) : Nat :=
  minutesAgo % 1440 / 60

/-- The value of the `resume` variable after lines 492-539. -/
inductive ResumeFlag where
  | empty
  | r
  | w
  | prompt
  deriving DecidableEq

/-- Lines 492-539 of `get_updates`, for a run with the given flags: with
neither `--forcerestart` nor `--writefromcache`, a finished previous
update prompts the user; otherwise `resume` becomes `'r'` when
`relativedelta(now, update_last_run).hours > 6`, and then — because the
`resume = 'r'` assignment at line 536 sits outside the
`days_to_update != config.args.update` comparison at line 530, which only
guards the warning message — whenever the `days_to_update` key exists at
all.  `requestedDays` is read only by that warning message, so it does
not influence the returned flag. -/
def get_updates_resume_flag (st : UpdatesStatus) (requestedDays : Nat)
    (forcerestart writefromcache : Bool) : ResumeFlag :=
  if forcerestart = false ∧ writefromcache = false then
    if st.update_finished = true then .prompt
    else
      let afterStale : ResumeFlag :=
        match st.update_last_run_minutes_ago with
        | some ago => if relativedelta_hours ago > 6 then .r else .empty
        | none => .empty
      if st.days_to_update.isSome = true ∧ afterStale ≠ .r then .r
      else afterStale
  else if writefromcache = true then .w
  else .empty

/-- Line 541: the updates cache is deleted and the run restarts from
offset 0 exactly when `resume == 'r'` or `--forcerestart` was passed. -/
def update_restarts_from_zero (st : UpdatesStatus) (requestedDays : Nat)
    (forcerestart writefromcache : Bool) : Bool :=
  get_updates_resume_flag st requestedDays forcerestart writefromcache
      = ResumeFlag.r
    || forcerestart

/-! ## Process exit codes — `main` (src/mobydump.py lines 47-538) -/

/-- The exit status of `main()`: `sys.exit(0)` ends the `--platforms`
listing (line 102); every other path through the function — including a
games run that downloaded and wrote its output files without error —
falls through to the `sys.exit(1)` at line 538, which is indented at
function level, outside the `else` branch that prints the missing-API-key
message. -/
def mobydump_main_exit_code (apiKeyPresent platformsFlag : Bool) : Nat :=
  if apiKeyPresent = true then
    if platformsFlag = true then 0
    else 1
  else 1

/-! ## Theorems -/

/-- Elements of `foldl max` over a list of naturals: the fold is an upper
bound of the accumulator and every element, and is the accumulator or an
element. -/
theorem foldl_max_spec (l : List Nat) (a : Nat) :
    (a ≤ l.foldl max a) ∧ (∀ x ∈ l, x ≤ l.foldl max a) ∧
      (l.foldl max a = a ∨ l.foldl max a ∈ l) := by
  induction l generalizing a with
  | nil => simp
  | cons y ys ih =>
    obtain ⟨h1, h2, h3⟩ := ih (max a y)
    refine ⟨le_trans (le_max_left a y) h1, ?_, ?_⟩
    · intro x hx
      rcases List.mem_cons.mp hx with rfl | hx
      · exact le_trans (le_max_right a x) h1
      · exact h2 x hx
    · rcases h3 with h | h
      · rcases max_choice a y with hc | hc
        · rw [List.foldl_cons, h, hc]; exact Or.inl rfl
        · rw [List.foldl_cons, h, hc]; exact Or.inr (List.mem_cons_self _ _)
      · exact Or.inr (List.mem_cons_of_mem _ h)

/-- C2: for every Stage-1 run over a cache directory, the starting offset
is `max(cached listing offsets) + 100` when at least one listing page is
cached (`m` being the greatest cached offset), and `0` when none is; in
particular cached offsets `[0, 100]` resume at exactly `200`. -/
theorem stage1_resume_offset_correct :
    stage1_resume_offset [] = 0 ∧
    (∀ (l : List Nat) (m : Nat), m ∈ l → (∀ x ∈ l, x ≤ m) →
        stage1_resume_offset l = m + 100) ∧
    stage1_resume_offset [0, 100] = 200 := by
  refine ⟨rfl, ?_, by decide⟩
  intro l m hm hle
  obtain ⟨hub, hall, hcases⟩ := foldl_max_spec l 0
  have hne : ¬l.isEmpty := by
    cases l with
    | nil => cases hm
    | cons a as => simp [List.isEmpty]
  have hfold : l.foldl max 0 = m := by
    refine le_antisymm ?_ (hall m hm)
    rcases hcases with h0 | hmem
    · omega
    · exact hle _ hmem
  simp [stage1_resume_offset, hne, hfold]

/-- Witness for C2 at the concrete input `[0, 100]`. -/
theorem stage1_resume_offset_correct_witness :
    (100 ∈ ([0, 100] : List Nat) ∧ ∀ x ∈ ([0, 100] : List Nat), x ≤ 100) ∧
      stage1_resume_offset [0, 100] = 100 + 100 :=
  ⟨⟨by decide, by decide⟩,
    stage1_resume_offset_correct.2.1 [0, 100] 100 (by decide) (by decide)⟩

/-- `get_games_loop` over a prefix of full pages followed by a short last
page caches every page at offsets `offset, offset+100, ...` and ends with
`stage_1_finished = True`, provided the run does not hit the
empty-platform abort. -/
theorem get_games_loop_full_then_short (ps : List (List Nat)) (last : List Nat) :
    ∀ (offset : Nat) (acc : List (Nat × List Nat)),
      (∀ p ∈ ps, p.length = 100) → last.length < 100 →
      ¬(offset = 0 ∧ ps = [] ∧ last = []) →
      get_games_loop offset (ps ++ [last]) acc =
        .completed (acc ++ List.zip (List.range' offset (ps.length + 1) 100)
          (ps ++ [last])) true := by
  induction ps with
  | nil =>
    intro offset acc _ hshort habort
    have hnab : ¬(last.length = 0 ∧ offset = 0) := by
      rintro ⟨h0, hoff⟩
      exact habort ⟨hoff, rfl, List.length_eq_zero.mp h0⟩
    simp only [List.nil_append, get_games_loop]
    rw [if_neg hnab, if_pos hshort]
    simp [List.range']
  | cons p ps ih =>
    intro offset acc hfull hshort _
    have hp : p.length = 100 := hfull p (List.mem_cons_self _ _)
    have hnab : ¬(p.length = 0 ∧ offset = 0) := by
      rintro ⟨h0, _⟩; omega
    have hns : ¬(p.length < 100) := by omega
    have hrec := ih (offset + 100) (acc ++ [(offset, p)])
      (fun q hq => hfull q (List.mem_cons_of_mem _ hq)) hshort
      (by rintro ⟨h, _⟩; omega)
    simp only [List.cons_append, get_games_loop]
    rw [if_neg hnab, if_neg hns]
    simp only [List.append_eq]
    rw [hrec]
    simp [List.range', List.append_assoc]

/-- C3: Stage 1 terminates exactly at the short page: for every page
sequence whose last page has fewer than 100 items (all earlier pages
carrying the full 100), the fetch loop caches exactly those pages and sets
`stage_1_finished` to true; and for every run whose first requested page
(offset 0) has zero items, the platform cache directory is deleted and the
process exits with code 1. -/
theorem stage1_termination_and_empty_abort :
    (∀ (ps : List (List Nat)) (last : List Nat),
        (∀ p ∈ ps, p.length = 100) → last.length < 100 →
        (ps = [] → last ≠ []) →
        get_games_run (ps ++ [last]) =
          .completed (List.zip (List.range' 0 (ps.length + 1) 100)
            (ps ++ [last])) true) ∧
    (∀ rest : List (List Nat),
        get_games_run ([] :: rest) = .abortedEmptyPlatform true 1) := by
  constructor
  · intro ps last hfull hshort hne
    have := get_games_loop_full_then_short ps last 0 [] hfull hshort
      (by rintro ⟨_, hps, hlast⟩; exact hne hps hlast)
    simpa [get_games_run] using this
  · intro rest
    simp [get_games_run, get_games_loop]

/-- Witness for C3: a run of one full page and a short page of three items
terminates after caching both pages with the stage marked finished, and a
run whose first page is empty aborts with exit code 1. -/
theorem stage1_termination_and_empty_abort_witness :
    get_games_run ([List.range 100] ++ [[1, 2, 3]]) =
      .completed (List.zip (List.range' 0 2 100)
        ([List.range 100] ++ [[1, 2, 3]])) true ∧
    get_games_run ([] :: ([] : List (List Nat))) =
      .abortedEmptyPlatform true 1 := by
  constructor
  · exact stage1_termination_and_empty_abort.1 [List.range 100] [1, 2, 3]
      (by intro p hp; rw [List.mem_singleton] at hp; rw [hp]; simp)
      (by decide) (by simp)
  · exact stage1_termination_and_empty_abort.2 []

/-- Every id in the incoming `requested` accumulator survives to the end
of `get_game_details_loop`. -/
theorem get_game_details_loop_requested_mono (respond : Nat → Bool) :
    ∀ (ids : List Nat) (cache : Finset Nat) (req : List Nat) (x : Nat),
      x ∈ req → x ∈ (get_game_details_loop respond ids cache req).2 := by
  intro ids
  induction ids with
  | nil => intro cache req x hx; simpa [get_game_details_loop] using hx
  | cons id rest ih =>
    intro cache req x hx
    simp only [get_game_details_loop]
    by_cases hc : id ∈ cache
    · rw [if_pos hc]; exact ih cache req x hx
    · rw [if_neg hc]
      by_cases hr : respond id
      · rw [if_pos hr]
        exact ih _ _ x (List.mem_append_left _ hx)
      · rw [if_neg hr]
        exact ih _ _ x (List.mem_append_left _ hx)

/-- Any id that `get_game_details_loop` adds to the `requested` list was
absent from the detail cache it started from. -/
theorem get_game_details_loop_requested_not_cached (respond : Nat → Bool) :
    ∀ (ids : List Nat) (cache : Finset Nat) (req : List Nat) (x : Nat),
      x ∈ (get_game_details_loop respond ids cache req).2 →
      x ∈ req ∨ x ∉ cache := by
  intro ids
  induction ids with
  | nil => intro cache req x hx; left; simpa [get_game_details_loop] using hx
  | cons id rest ih =>
    intro cache req x hx
    simp only [get_game_details_loop] at hx
    by_cases hc : id ∈ cache
    · rw [if_pos hc] at hx; exact ih cache req x hx
    · rw [if_neg hc] at hx
      by_cases hr : respond id
      · rw [if_pos hr] at hx
        rcases ih _ _ x hx with hreq | hnc
        · rcases List.mem_append.mp hreq with h | h
          · exact Or.inl h
          · right; rw [List.mem_singleton.mp h]; exact hc
        · right; intro hmem; exact hnc (Finset.mem_insert_of_mem hmem)
      · rw [if_neg hr] at hx
        rcases ih _ _ x hx with hreq | hnc
        · rcases List.mem_append.mp hreq with h | h
          · exact Or.inl h
          · right; rw [List.mem_singleton.mp h]; exact hc
        · exact Or.inr hnc

/-- The detail cache produced by `get_game_details_loop` is exactly the
starting cache together with the listed ids whose requests succeed. -/
theorem get_game_details_loop_cache_eq (respond : Nat → Bool) :
    ∀ (ids : List Nat) (cache : Finset Nat) (req : List Nat),
      (get_game_details_loop respond ids cache req).1 =
        cache ∪ (ids.filter (fun i => respond i)).toFinset := by
  intro ids
  induction ids with
  | nil => intro cache req; simp [get_game_details_loop]
  | cons id rest ih =>
    intro cache req
    simp only [get_game_details_loop]
    by_cases hc : id ∈ cache
    · rw [if_pos hc, ih]
      by_cases hr : respond id
      · rw [List.filter_cons_of_pos hr, List.toFinset_cons, Finset.union_insert,
          Finset.insert_eq_self.mpr (Finset.mem_union_left _ hc)]
      · rw [List.filter_cons_of_neg (by simpa using hr)]
    · rw [if_neg hc]
      by_cases hr : respond id
      · rw [if_pos hr, ih, List.filter_cons_of_pos hr, List.toFinset_cons,
          Finset.union_insert, Finset.insert_union]
      · rw [if_neg hr, ih, List.filter_cons_of_neg (by simpa using hr)]

/-- Every listed id absent from the starting detail cache has a request
issued for it by `get_game_details_loop`. -/
theorem get_game_details_loop_coverage (respond : Nat → Bool) :
    ∀ (ids : List Nat) (cache : Finset Nat) (req : List Nat) (j : Nat),
      j ∈ ids → j ∉ cache →
      j ∈ (get_game_details_loop respond ids cache req).2 := by
  intro ids
  induction ids with
  | nil => intro cache req j hj; cases hj
  | cons id rest ih =>
    intro cache req j hj hnc
    simp only [get_game_details_loop]
    by_cases hjid : j = id
    · subst hjid
      rw [if_neg hnc]
      by_cases hr : respond j
      · rw [if_pos hr]
        exact get_game_details_loop_requested_mono respond _ _ _ j
          (List.mem_append_right _ (List.mem_singleton_self j))
      · rw [if_neg hr]
        exact get_game_details_loop_requested_mono respond _ _ _ j
          (List.mem_append_right _ (List.mem_singleton_self j))
    · have hjrest : j ∈ rest := by
        rcases List.mem_cons.mp hj with h | h
        · exact absurd h hjid
        · exact h
      by_cases hc : id ∈ cache
      · rw [if_pos hc]; exact ih cache req j hjrest hnc
      · rw [if_neg hc]
        by_cases hr : respond id
        · rw [if_pos hr]
          refine ih _ _ j hjrest ?_
          intro hmem
          rcases Finset.mem_insert.mp hmem with h | h
          · exact hjid h
          · exact hnc h
        · rw [if_neg hr]
          exact ih _ _ j hjrest hnc

/-- Every `get_game_details` call ends with `stage_2_finished = True`. -/
theorem get_game_details_run_finished (skipdetails : Bool)
    (respond : Nat → Bool) (ids : List Nat) (cache : Finset Nat) :
    (get_game_details_run skipdetails respond ids cache).stage2Finished = true := by
  by_cases h : skipdetails <;> simp [get_game_details_run, h]

/-- C4: Stage 2 is idempotent over the detail cache: an id whose detail
cache file already exists is never requested, and a second stage-2 pass
run immediately after a completed one (the completed status and resulting
detail cache feeding the second pass) issues zero API requests. -/
theorem stage2_idempotent :
    (∀ (skipdetails : Bool) (respond : Nat → Bool) (ids : List Nat)
        (cache : Finset Nat) (x : Nat), x ∈ cache →
        x ∉ (stage2_entry false skipdetails respond ids cache).requested) ∧
    (∀ (skipdetails skipdetails2 : Bool) (respond respond2 : Nat → Bool)
        (ids ids2 : List Nat) (cache : Finset Nat),
        (stage2_entry
          (stage2_entry false skipdetails respond ids cache).stage2Finished
          skipdetails2 respond2 ids2
          (stage2_entry false skipdetails respond ids cache).details).requested
          = []) := by
  constructor
  · intro skipdetails respond ids cache x hx hmem
    by_cases h : skipdetails
    · simp [stage2_entry, get_game_details_run, h] at hmem
    · simp only [stage2_entry, get_game_details_run, if_neg h,
        if_neg (Bool.false_ne_true ∘ congrArg id)] at hmem
      rcases get_game_details_loop_requested_not_cached respond ids cache [] x
        (by simpa using hmem) with hreq | hnc
      · cases hreq
      · exact hnc hx
  · intro skipdetails skipdetails2 respond respond2 ids ids2 cache
    have hfin : (stage2_entry false skipdetails respond ids cache).stage2Finished
        = true := by
      simp only [stage2_entry, if_neg (by simp : ¬(false = true))]
      exact get_game_details_run_finished skipdetails respond ids cache
    rw [hfin]
    simp [stage2_entry]

/-- Witness for C4: starting with id 5 cached, a pass over ids `[5, 6]`
never requests 5, and the follow-up pass issues no requests. -/
theorem stage2_idempotent_witness :
    (5 ∈ ({5} : Finset Nat) ∧
      5 ∉ (stage2_entry false false (fun _ => true) [5, 6] {5}).requested) ∧
    (stage2_entry
        (stage2_entry false false (fun _ => true) [5, 6] {5}).stage2Finished
        false (fun _ => true) [5, 6]
        (stage2_entry false false (fun _ => true) [5, 6] {5}).details).requested
      = [] :=
  ⟨⟨by decide,
    stage2_idempotent.1 false (fun _ => true) [5, 6] {5} 5 (by decide)⟩,
    stage2_idempotent.2 false false (fun _ => true) (fun _ => true)
      [5, 6] [5, 6] {5}⟩

/-- C7: an id whose per-item detail request returns HTTP 404 is skipped —
no detail cache entry is written for it — while every other uncached id
still has its request issued, and the run still ends with
`stage_2_finished = True` (the 404 is not fatal). -/
theorem stage2_404_skipped (respond : Nat → Bool) (ids : List Nat)
    (cache : Finset Nat) (id : Nat)
    (hmem : id ∈ ids) (hnc : id ∉ cache) (h404 : respond id = false) :
    id ∉ (get_game_details_run false respond ids cache).details ∧
    id ∈ (get_game_details_run false respond ids cache).requested ∧
    (∀ j ∈ ids, j ∉ cache →
      j ∈ (get_game_details_run false respond ids cache).requested) ∧
    (get_game_details_run false respond ids cache).stage2Finished = true := by
  refine ⟨?_, ?_, ?_, get_game_details_run_finished false respond ids cache⟩
  · intro hin
    simp only [get_game_details_run, if_neg (by simp : ¬(false = true))] at hin
    rw [get_game_details_loop_cache_eq respond ids cache []] at hin
    rcases Finset.mem_union.mp hin with h | h
    · exact hnc h
    · rw [List.mem_toFinset, List.mem_filter] at h
      rw [h404] at h
      exact Bool.false_ne_true h.2
  · simp only [get_game_details_run, if_neg (by simp : ¬(false = true))]
    exact get_game_details_loop_coverage respond ids cache [] id hmem hnc
  · intro j hj hjnc
    simp only [get_game_details_run, if_neg (by simp : ¬(false = true))]
    exact get_game_details_loop_coverage respond ids cache [] j hj hjnc

/-- Witness for C7: with ids `[3, 4]`, an empty detail cache and id 3
responding 404, id 3 is requested but not cached, id 4 is still
requested, and the stage is marked finished. -/
theorem stage2_404_skipped_witness :
    3 ∉ (get_game_details_run false (fun i => i ≠ 3) [3, 4] ∅).details ∧
    3 ∈ (get_game_details_run false (fun i => i ≠ 3) [3, 4] ∅).requested ∧
    (∀ j ∈ [3, 4], j ∉ (∅ : Finset Nat) →
      j ∈ (get_game_details_run false (fun i => i ≠ 3) [3, 4] ∅).requested) ∧
    (get_game_details_run false (fun i => i ≠ 3) [3, 4] ∅).stage2Finished
      = true :=
  stage2_404_skipped (fun i => i ≠ 3) [3, 4] ∅ 3 (by decide) (by decide)
    (by decide)

/-- A successful attempt returns its response with no further waits. -/
theorem api_request_ok (outcome : Nat → Attempt) (d : Bool) (t : Nat)
    (h : outcome t = .ok) : api_request outcome d t = .success t [] := by
  rw [api_request, h]

/-- A retryable attempt with schedule entries left sleeps
`progressive_timeout t` and becomes an attempt at count `t + 1`. -/
theorem api_request_retry_step (outcome : Nat → Attempt) (d : Bool) (t : Nat)
    (hre : retryable (outcome t) = true)
    (hns : progressive_timeout t ≠ -1) :
    api_request outcome d t =
      addWait (progressive_timeout t) (api_request outcome false (t + 1)) := by
  rcases h : outcome t with _ | _ | _ | code
  · rw [h] at hre; simp [retryable] at hre
  · rw [api_request, h, dif_neg hns]
  · rw [api_request, h, dif_neg hns]
  · rw [h] at hre
    simp only [retryable, Bool.or_eq_true, beq_iff_eq, Bool.and_eq_true,
      decide_eq_true_eq] at hre
    have h401 : ¬(code = 401) := by omega
    have h404 : ¬(code = 404 ∧ d = true) := by rintro ⟨hc, _⟩; omega
    have h422 : ¬(code = 422) := by omega
    rw [api_request, h]
    dsimp only
    rw [if_neg h401, if_neg h404, if_neg h422, if_pos hre, dif_neg hns]

/-- A retryable attempt at the `-1` sentinel exits the process with
code 1. -/
theorem api_request_exhausted_step (outcome : Nat → Attempt) (d : Bool)
    (t : Nat) (hre : retryable (outcome t) = true)
    (hs : progressive_timeout t = -1) :
    api_request outcome d t = .exited 1 [] := by
  rcases h : outcome t with _ | _ | _ | code
  · rw [h] at hre; simp [retryable] at hre
  · rw [api_request, h, dif_pos hs]
  · rw [api_request, h, dif_pos hs]
  · rw [h] at hre
    simp only [retryable, Bool.or_eq_true, beq_iff_eq, Bool.and_eq_true,
      decide_eq_true_eq] at hre
    have h401 : ¬(code = 401) := by omega
    have h404 : ¬(code = 404 ∧ d = true) := by rintro ⟨hc, _⟩; omega
    have h422 : ¬(code = 422) := by omega
    rw [api_request, h]
    dsimp only
    rw [if_neg h401, if_neg h404, if_neg h422, if_pos hre, dif_pos hs]

/-- When every attempt from count `t` through 5 is retryable, the chain
sleeps the remaining schedule entries and exits with code 1. -/
theorem api_request_all_retryable_aux (outcome : Nat → Attempt) :
    ∀ (n t : Nat) (d : Bool), t + n = 5 →
      (∀ i, i ≤ 5 → retryable (outcome i) = true) →
      api_request outcome d t =
        .exited 1 ((List.range' t (5 - t)).map progressive_timeout) := by
  intro n
  induction n with
  | zero =>
    intro t d ht hall
    have ht5 : t = 5 := by omega
    subst ht5
    rw [api_request_exhausted_step outcome d 5 (hall 5 le_rfl) rfl]
    simp
  | succ n ih =>
    intro t d ht hall
    have hns : progressive_timeout t ≠ -1 := by
      have ht4 : t ≤ 4 := by omega
      interval_cases t <;> decide
    rw [api_request_retry_step outcome d t (hall t (by omega)) hns,
      ih (t + 1) false (by omega) hall]
    have hrange : List.range' t (5 - t) =
        t :: List.range' (t + 1) (5 - (t + 1)) := by
      have h5 : 5 - t = (5 - (t + 1)) + 1 := by omega
      rw [h5, List.range'_succ]
    rw [hrange]
    simp [addWait]

/-- When the attempts from count `t` up to (but not including) `k ≤ 5`
are retryable and attempt `k` succeeds, the chain sleeps the schedule
entries `t, ..., k-1` and succeeds at attempt `k`. -/
theorem api_request_success_aux (outcome : Nat → Attempt) :
    ∀ (n t k : Nat) (d : Bool), t + n = k → k ≤ 5 →
      (∀ i, t ≤ i → i < k → retryable (outcome i) = true) →
      outcome k = .ok →
      api_request outcome d t =
        .success k ((List.range' t (k - t)).map progressive_timeout) := by
  intro n
  induction n with
  | zero =>
    intro t k d ht _ _ hok
    have htk : t = k := by omega
    subst htk
    rw [api_request_ok outcome d t hok]
    simp
  | succ n ih =>
    intro t k d ht hk5 hall hok
    have hns : progressive_timeout t ≠ -1 := by
      have ht4 : t ≤ 4 := by omega
      interval_cases t <;> decide
    rw [api_request_retry_step outcome d t (hall t le_rfl (by omega)) hns,
      ih (t + 1) k false (by omega) hk5
        (fun i hi hik => hall i (by omega) hik) hok]
    have hrange : List.range' t (k - t) =
        t :: List.range' (t + 1) (k - (t + 1)) := by
      have h5 : k - t = (k - (t + 1)) + 1 := by omega
      rw [h5, List.range'_succ]
    rw [hrange]
    simp [addWait]

/-- C6: on every retryable failure (timeout, connection error, HTTP
429/500/502/503/504/520/522/524/525 or other 5xx), the request is retried
with wait times drawn in order from the schedule `[0, 60, 300, 600, 3600]`
seconds indexed by the retry count — a run whose first `k ≤ 5` attempts
fail retryably and whose attempt `k` succeeds sleeps exactly the first `k`
schedule entries — and once the retry count runs past the schedule (six
retryable failures in a row), the process exits with code 1 after
sleeping the whole schedule. -/
theorem retry_backoff_schedule :
    (∀ (outcome : Nat → Attempt) (d : Bool) (k : Nat), k ≤ 5 →
        (∀ i, i < k → retryable (outcome i) = true) → outcome k = .ok →
        api_request outcome d 0 =
          .success k ((List.range k).map progressive_timeout)) ∧
    (∀ (outcome : Nat → Attempt) (d : Bool),
        (∀ i, i ≤ 5 → retryable (outcome i) = true) →
        api_request outcome d 0 = .exited 1 [0, 60, 300, 600, 3600]) := by
  constructor
  · intro outcome d k hk5 hall hok
    have := api_request_success_aux outcome k 0 k d (by omega) hk5
      (fun i _ hik => hall i hik) hok
    rw [this, List.range_eq_range']
    simp
  · intro outcome d hall
    have := api_request_all_retryable_aux outcome 5 0 d (by omega) hall
    rw [this]
    rfl

/-- Witness for C6: two 429s followed by a success sleep `[0, 60]`, and
six 503s in a row sleep the whole schedule and exit with code 1. -/
theorem retry_backoff_schedule_witness :
    ((fun i => if i < 2 then Attempt.http 429 else Attempt.ok) 2
        = Attempt.ok ∧
      api_request (fun i => if i < 2 then Attempt.http 429 else Attempt.ok)
          false 0 =
        .success 2 ((List.range 2).map progressive_timeout)) ∧
    api_request (fun _ => Attempt.http 503) false 0 =
      .exited 1 [0, 60, 300, 600, 3600] :=
  ⟨⟨rfl,
    retry_backoff_schedule.1 (fun i => if i < 2 then Attempt.http 429 else .ok)
      false 2 (by omega)
      (fun i hi => by
        have : i < 2 := hi
        simp [this, retryable])
      (by simp)⟩,
    retry_backoff_schedule.2 (fun _ => Attempt.http 503) false
      (fun i _ => rfl)⟩

/-- The eviction loop removes exactly the listed ids from the set and
records exactly those that were present. -/
theorem evict_loop_eq :
    ∀ (l : List Nat) (gids removed : Finset Nat),
      evict_loop l gids removed =
        (gids \ l.toFinset, removed ∪ gids ∩ l.toFinset) := by
  intro l
  induction l with
  | nil => intro gids removed; simp [evict_loop]
  | cons x rest ih =>
    intro gids removed
    by_cases hx : x ∈ gids
    · rw [evict_loop, if_pos hx, ih]
      simp only [Prod.mk.injEq]
      constructor
      · ext a
        by_cases hax : a = x
        · subst hax; simp [hx]
        · simp [hax]
      · ext a
        by_cases hax : a = x
        · subst hax; simp [hx]
        · simp [hax]
    · rw [evict_loop, if_neg hx, ih]
      simp only [Prod.mk.injEq]
      constructor
      · ext a
        by_cases hax : a = x
        · subst hax; simp [hx]
        · simp [hax]
      · ext a
        by_cases hax : a = x
        · subst hax; simp [hx]
        · simp [hax]

set_option maxRecDepth 40000 in
/-- C1 fails on the code: the reconciled id set is computed as the claim
says, but the listing-cache rebuild does not realize it on disk.  Take a
10-game platform — one cached listing page `0.json` holding ids 101-110 —
whose feed adds the 100 related ids 1-100 and whose unrelated partition
is empty: the eviction loop removes nothing, the reconciled set is
`{1..110}`, and ids 101-110 are in neither partition, so the claim says
they are untouched.  But after the 100 related entries trigger the
modulo-100 temp-file write, `file_count` — shared between the page reads
and the temp-file writes — has advanced to 1, so every read of
`games/{100*file_count}.json` for ids 101-110 opens a file that does not
exist and is swallowed by `except: pass`: each of those ids is dropped
while an empty temp page is written, and the rename pass replaces the
whole cache.  The untouched ids 101-110 (105 below) vanish from the
on-disk listing.  (The dual mode of the same shared counter — evictions
in two different pages leave the reader stuck re-loading `0.json`, so a
never-rewritten stale page keeps an evicted id on disk — hand-traces the
same way but is too large to evaluate in-kernel here.) -/
theorem listing_rebuild_drops_untouched_ids :
    (evict_loop []
        ((List.range' 101 10).toFinset ∪ (List.range' 1 100).toFinset)
        ∅).1 = (List.range' 1 110).toFinset ∧
    (evict_loop []
        ((List.range' 101 10).toFinset ∪ (List.range' 1 100).toFinset)
        ∅).2 = ∅ ∧
    105 ∈ List.range' 1 110 ∧
    105 ∉ List.range' 1 100 ∧
    105 ∈ disk_ids [(0, List.range' 101 10)] ∧
    105 ∉ disk_ids (recreate_cache_files (List.range' 1 100)
      [(0, List.range' 101 10)] (List.range' 1 110)) ∧
    1 ∈ disk_ids (recreate_cache_files (List.range' 1 100)
      [(0, List.range' 101 10)] (List.range' 1 110)) := by decide

/-- C8: a collection for which the changes feed yields no related records
and no evicted ids (no unrelated id intersects its existing id set) is
left with its listing cache, detail cache and completion state identical,
nothing re-fetched, nothing deleted, and its output files are not
re-exported. -/
theorem update_platform_noop_skip (pid : Nat) (feed : List MGGame)
    (respond : Nat → Bool) (st : PlatformState)
    (hrel : (splitGames pid feed).1 = [])
    (hev : st.listingIds ∩ unrelatedIds pid feed = ∅) :
    update_platform pid feed respond st = (st, ⟨[], ∅, false⟩) := by
  by_cases hel : platform_update_eligible st = true
  · by_cases hA : (splitGames pid feed).1 = [] ∧ (splitGames pid feed).2 = []
    · simp only [update_platform]
      rw [if_pos hel, if_pos hA]
    · have hded : ((splitGames pid feed).2.map MGGame.game_id).dedup.toFinset
          = unrelatedIds pid feed := by
        ext a; simp [unrelatedIds]
      have hloop : evict_loop
          ((splitGames pid feed).2.map MGGame.game_id).dedup
          (st.listingIds ∪
            ((splitGames pid feed).1.map MGGame.game_id).toFinset) ∅ =
          ((st.listingIds ∪
              ((splitGames pid feed).1.map MGGame.game_id).toFinset)
              \ unrelatedIds pid feed,
            (st.listingIds ∪
              ((splitGames pid feed).1.map MGGame.game_id).toFinset)
              ∩ unrelatedIds pid feed) := by
        rw [evict_loop_eq, hded, Finset.empty_union]
      have hB : (splitGames pid feed).1 = [] ∧
          (st.listingIds ∪
            ((splitGames pid feed).1.map MGGame.game_id).toFinset)
            ∩ unrelatedIds pid feed = ∅ := by
        refine ⟨hrel, ?_⟩
        rw [hrel]
        simpa using hev
      simp only [update_platform]
      rw [if_pos hel, if_neg hA, hloop]
      dsimp only
      rw [if_pos hB]
  · simp only [update_platform]
    rw [if_neg hel]

/-- Witness for C8: a feed whose single record belongs to another
platform and whose id is not in the collection leaves the collection's
state identical with no export. -/
theorem update_platform_noop_skip_witness :
    (splitGames 1 [⟨9, [2]⟩]).1 = [] ∧
    ((⟨true, true, {1, 2, 3}, {1, 2}⟩ : PlatformState).listingIds
        ∩ unrelatedIds 1 [⟨9, [2]⟩] = ∅) ∧
    update_platform 1 [⟨9, [2]⟩] (fun _ => true)
        ⟨true, true, {1, 2, 3}, {1, 2}⟩ =
      (⟨true, true, {1, 2, 3}, {1, 2}⟩, ⟨[], ∅, false⟩) :=
  ⟨by decide, by decide,
    update_platform_noop_skip 1 [⟨9, [2]⟩] (fun _ => true)
      ⟨true, true, {1, 2, 3}, {1, 2}⟩ (by decide) (by decide)⟩

/-- C5 fails on the code: an unfinished update run whose `update_last_run`
is only 2 hours old and whose persisted `days_to_update` equals the
requested window is still restarted from offset 0, because the
`resume = 'r'` assignment sits outside the days-differ comparison and runs
whenever the key exists; conversely a run 30 hours old (whose
`relativedelta` hours component is 6) is not treated as stale by the
`rd.hours > 6` test when no `days_to_update` key is present. -/
theorem update_resume_decision_bug :
    update_restarts_from_zero ⟨false, some 120, some 7⟩ 7 false false
      = true ∧
    update_restarts_from_zero ⟨false, some 1800, none⟩ 7 false false
      = false := by decide

/-- C9 fails on the code: `main()` ends with an unconditional
`sys.exit(1)` at function level, so a games run that completes normally
exits with status 1; only the `--platforms` listing path exits 0. -/
theorem main_exit_code_bug :
    mobydump_main_exit_code true false = 1 ∧
    mobydump_main_exit_code true true = 0 ∧
    mobydump_main_exit_code false false = 1 := by decide

/-- C10: `get_game_details` with `--skipdetails` still sets
`stage_2_finished = True` and persists it, issuing no requests and leaving
the detail cache as it was — in particular a collection with stage 1 done
and an empty detail cache becomes eligible for update reconciliation with
no detail cache entries existing. -/
theorem stage2_skipdetails_marks_finished :
    ∀ (respond : Nat → Bool) (ids : List Nat) (cache : Finset Nat)
      (listing : Finset Nat),
      (get_game_details_run true respond ids cache).stage2Finished = true ∧
      (get_game_details_run true respond ids cache).details = cache ∧
      (get_game_details_run true respond ids cache).requested = [] ∧
      platform_update_eligible
        ⟨true, (get_game_details_run true respond ids ∅).stage2Finished,
          listing, (get_game_details_run true respond ids ∅).details⟩
        = true ∧
      (get_game_details_run true respond ids ∅).details = ∅ := by
  intro respond ids cache listing
  refine ⟨rfl, rfl, rfl, ?_, rfl⟩
  simp [platform_update_eligible, get_game_details_run]
